import Mathlib

/-!
Shallow embedding of `wuff.py` (Zürich dog-data CLI tool).

The embedded parts are the ones the verified claims are about:
* the `Dog` record model and `Dog.from_dict` construction from a field mapping,
* the reusable `DogData` iterator,
* the `analyze` aggregation producing a `DogStats` summary,
* the `find` lookup and the sampling core of `create`.

Python `Optional[int]` year arguments become `Option Int`; Python truthiness
of an optional year (`if year:` / `year or ...`) is embedded explicitly: both
`none` and `some 0` are falsy.  Python `sorted(..., key=lambda x: x[1],
reverse=True)` is a stable sort, embedded as a stable insertion sort
`sortDesc`.  Python dicts preserve key insertion order; the running name
tallies are embedded as association lists where updating an existing key
keeps its position and a new key is appended.
-/

namespace Wuff

inductive Sex
  | male
  | female
deriving DecidableEq, Repr

/-- `Dog` dataclass: one normalized row of the dog dataset. -/
structure Dog where
  name : String
  sex : Sex
  birth_year : Int
  record_year : Int
  count : Int
deriving DecidableEq, Repr

/-- Errors that `Dog.from_dict` can raise.  In Python a missing key and an
unrecognized sex code both surface as `KeyError`, and a non-numeric year or
count as `ValueError`; the embedding keeps the three conditions apart. -/
inductive FieldError
  | missingField (key : String)
  | invalidSexCode (code : String)
  | invalidInt (value : String)
deriving DecidableEq, Repr

/-- The five required input fields of a `Dog`. -/
def requiredKeys : List String :=
  ["HundenameText", "SexHundCd", "GebDatHundJahr", "StichtagDatJahr", "AnzHunde"]

/-- `Dog.from_dict`: build a dog from a field mapping (association list).
Fields are read in the order the Python keyword arguments are evaluated:
name, sex code, birth year, record year, count. -/
def Dog.from_dict (dic : List (String × String)) : Except FieldError Dog :=
  match dic.lookup "HundenameText" with
  | none => .error (.missingField "HundenameText")
  | some nm =>
    match dic.lookup "SexHundCd" with
    | none => .error (.missingField "SexHundCd")
    | some code =>
      match (if code = "1" then some Sex.male
             else if code = "2" then some Sex.female else none) with
      | none => .error (.invalidSexCode code)
      | some sx =>
        match dic.lookup "GebDatHundJahr" with
        | none => .error (.missingField "GebDatHundJahr")
        | some bys =>
          match bys.toInt? with
          | none => .error (.invalidInt bys)
          | some birth =>
            match dic.lookup "StichtagDatJahr" with
            | none => .error (.missingField "StichtagDatJahr")
            | some rys =>
              match rys.toInt? with
              | none => .error (.invalidInt rys)
              | some recy =>
                match dic.lookup "AnzHunde" with
                | none => .error (.missingField "AnzHunde")
                | some cs =>
                  match cs.toInt? with
                  | none => .error (.invalidInt cs)
                  | some cnt =>
                    .ok { name := nm, sex := sx, birth_year := birth,
                          record_year := recy, count := cnt }

/-- Does a `from_dict` result denote the missing-required-field failure? -/
def isMissingField : Except FieldError Dog → Bool
  | .error (.missingField _) => true
  | _ => false

/-- The values present in a field mapping are well formed: a present sex code
is `"1"` or `"2"` and present numeric fields parse as integers. -/
def goodValues (dic : List (String × String)) : Bool :=
  (match dic.lookup "SexHundCd" with
   | none => true
   | some c => c == "1" || c == "2") &&
  (match dic.lookup "GebDatHundJahr" with
   | none => true
   | some v => v.toInt?.isSome) &&
  (match dic.lookup "StichtagDatJahr" with
   | none => true
   | some v => v.toInt?.isSome) &&
  (match dic.lookup "AnzHunde" with
   | none => true
   | some v => v.toInt?.isSome)

/-- `DogData`: a reusable external iterator over a materialized list of dogs.
`current` is the internal cursor, `data` the materialized rows. -/
structure DogData where
  current : Nat
  data : List Dog
deriving DecidableEq, Repr

/-- `DogData.__iter__`: reset the cursor so that the iterator can be reused. -/
def DogData.iter (d : DogData) : DogData := { d with current := 0 }

/-- `DogData.__next__`: yield the element at the cursor and advance, or stop. -/
def DogData.next (d : DogData) : Option (Dog × DogData) :=
  if h : d.current < d.data.length then
    some (d.data.get ⟨d.current, h⟩, { d with current := d.current + 1 })
  else
    none

/-- Exhaust the iterator from its current cursor (what `list(dogs)` does),
returning the yielded elements and the final iterator state. -/
def DogData.drain (d : DogData) : List Dog × DogData :=
  if h : d.current < d.data.length then
    let r := DogData.drain { d with current := d.current + 1 }
    (d.data.get ⟨d.current, h⟩ :: r.1, r.2)
  else
    ([], d)
termination_by d.data.length - d.current
decreasing_by omega

/-- Stable descending insertion by the second (count) component: `x` is placed
before the first strictly smaller count, after equal counts. -/
def insertDesc (x : String × Int) : List (String × Int) → List (String × Int)
  | [] => [x]
  | y :: ys => if x.2 ≥ y.2 then x :: y :: ys else y :: insertDesc x ys

/-- Model of Python `sorted(..., key=lambda x: x[1], reverse=True)`: a stable
sort by count descending (Python sorts are stable; with `reverse=True` equal
elements keep their original relative order). -/
def sortDesc : List (String × Int) → List (String × Int)
  | [] => []
  | x :: xs => insertDesc x (sortDesc xs)

/-- `DogStats` dataclass: the statistics summary produced by `analyze`. -/
structure DogStats where
  name_longest : String
  name_shortest : Option String
  top_names_male : List (String × Int)
  top_names_female : List (String × Int)
  dog_count_male : Int
  dog_count_female : Int
  first_year : Option Int
  last_year : Int
  top_limit : Nat := 10
deriving DecidableEq, Repr

/-- `DogStats.dog_count_overall` property. -/
def DogStats.dog_count_overall (s : DogStats) : Int :=
  s.dog_count_male + s.dog_count_female

/-- `DogStats.top_names_overall` property: both top-10 lists concatenated,
re-sorted by count descending, truncated to `top_limit`. -/
def DogStats.top_names_overall (s : DogStats) : List (String × Int) :=
  (sortDesc (s.top_names_male ++ s.top_names_female)).take s.top_limit

/-- The running state of the `analyze` loop: one field per local variable. -/
structure AnalyzeState where
  longest_name : String
  shortest_name : Option String
  male_name_count : List (String × Int)
  female_name_count : List (String × Int)
  male_dog_count : Int
  female_dog_count : Int
  first_year : Option Int
  last_year : Int
deriving DecidableEq, Repr

/-- Model of `m[name] = m.get(name, 0) + count` on an insertion-ordered dict:
an existing key keeps its position and gets its value increased, a new key is
appended at the end. -/
def bump (m : List (String × Int)) (n : String) (c : Int) : List (String × Int) :=
  if (m.lookup n).isSome then
    m.map (fun p => if p.1 == n then (p.1, p.2 + c) else p)
  else
    m ++ [(n, c)]

/-- One iteration of the `analyze` loop body.  A row whose name is the
placeholder `"?"` is skipped entirely (`continue`). -/
def step (s : AnalyzeState) (d : Dog) : AnalyzeState :=
  if d.name == "?" then s
  else
    { longest_name :=
        if d.name.length > s.longest_name.length then d.name else s.longest_name
      shortest_name :=
        match s.shortest_name with
        | none => some d.name
        | some sn => if d.name.length < sn.length then some d.name else some sn
      male_name_count :=
        if d.sex == Sex.male then bump s.male_name_count d.name d.count
        else s.male_name_count
      female_name_count :=
        if d.sex == Sex.male then s.female_name_count
        else bump s.female_name_count d.name d.count
      male_dog_count :=
        if d.sex == Sex.male then s.male_dog_count + d.count else s.male_dog_count
      female_dog_count :=
        if d.sex == Sex.male then s.female_dog_count
        else s.female_dog_count + d.count
      first_year :=
        match s.first_year with
        | none => some d.record_year
        | some fy => if fy > d.record_year then some d.record_year else some fy
      last_year :=
        if s.last_year < d.record_year then d.record_year else s.last_year }

/-- The initial values of the `analyze` loop locals. -/
def initState : AnalyzeState :=
  { longest_name := ""
    shortest_name := none
    male_name_count := []
    female_name_count := []
    male_dog_count := 0
    female_dog_count := 0
    first_year := none
    last_year := 0 }

/-- `filter(lambda dog: dog.record_year == year, dog_data) if year else
dog_data`: a year of `none` or `some 0` is falsy and applies no filter. -/
def yearFiltered (dogs : List Dog) (year : Option Int) : List Dog :=
  match year with
  | none => dogs
  | some y => if y == 0 then dogs else dogs.filter (fun d => d.record_year == y)

/-- `analyze`: calculate various statistics about dog data, optionally
limited to one record year. -/
def analyze (dogs : List Dog) (year : Option Int) : DogStats :=
  let s := (yearFiltered dogs year).foldl step initState
  { name_longest := s.longest_name
    name_shortest := s.shortest_name
    top_names_male := (sortDesc s.male_name_count).take 10
    top_names_female := (sortDesc s.female_name_count).take 10
    dog_count_male := s.male_dog_count
    dog_count_female := s.female_dog_count
    first_year := s.first_year
    last_year := s.last_year }

/-- Outcome of the `find` command's core logic. -/
inductive FindResult
  | noName
  | noYear (year : Int)
  | results (dogs : List Dog)
deriving DecidableEq, Repr

/-- `max(matching_name, key=lambda dog: dog.record_year).record_year`:
the maximum record year of a non-empty list (0 for the unreachable empty
case). -/
def maxRecordYear : List Dog → Int
  | [] => 0
  | d :: ds => ds.foldl (fun a x => max a x.record_year) d.record_year

/-- The `find` command's core logic: filter by exact name; pick the target
year as `ctx.obj["year"] or max(...record_year)` (so an explicit year of 0 is
falsy and falls back to the maximum); filter the name matches to that year. -/
def find (dogs : List Dog) (yearOpt : Option Int) (name : String) : FindResult :=
  let matching_name := dogs.filter (fun d => d.name == name)
  if matching_name.length == 0 then .noName
  else
    let year :=
      match yearOpt with
      | some y => if y == 0 then maxRecordYear matching_name else y
      | none => maxRecordYear matching_name
    let result := matching_name.filter (fun d => d.record_year == year)
    if result.length == 0 then .noYear year
    else .results result

/-- Error outcome of the `create` command's sampling core: sampling from an
empty filtered record set fails (in Python, `random.choice` raises on an
empty sequence; the spec's taxonomy names this condition `NoMatch`). -/
inductive CreateError
  | noMatch
deriving DecidableEq, Repr

/-- The record pool the fabricator samples from: dogs of the chosen sex,
further filtered to the year when the year option is truthy. -/
def fabricatorPool (dogs : List Dog) (yearOpt : Option Int) (sexPick : Sex) :
    List Dog :=
  let matching := dogs.filter (fun d => d.sex == sexPick)
  match yearOpt with
  | none => matching
  | some y => if y == 0 then matching
              else matching.filter (fun d => d.record_year == y)

/-- The sampling core of the `create` command: given the randomly chosen sex
and the two random draws (as indices into the pool), produce the synthesized
dog's name and birth year, independently sampled. -/
def create (dogs : List Dog) (yearOpt : Option Int) (sexPick : Sex)
    (ni bi : Nat) : Except CreateError (String × Int) :=
  match fabricatorPool dogs yearOpt sexPick with
  | [] => .error .noMatch
  | d :: ds =>
    .ok (((d :: ds).get ⟨ni % (d :: ds).length, Nat.mod_lt _ (Nat.succ_pos _)⟩).name,
         ((d :: ds).get ⟨bi % (d :: ds).length, Nat.mod_lt _ (Nat.succ_pos _)⟩).birth_year)

/-- The loop's skip predicate: rows whose name is not the placeholder. -/
def keep (d : Dog) : Bool := d.name != "?"

/-- The records an `analyze` call actually aggregates: the year-filtered
collection with placeholder-named rows removed. -/
def keptDogs (dogs : List Dog) (year : Option Int) : List Dog :=
  (yearFiltered dogs year).filter keep

/-- The names of the aggregated records, in iteration order. -/
def keptNames (dogs : List Dog) (year : Option Int) : List String :=
  (keptDogs dogs year).map Dog.name

/-- `(name, count)` pairs of the male records of a list, in order. -/
def malePairs (dogs : List Dog) : List (String × Int) :=
  (dogs.filter (fun d => d.sex == Sex.male)).map (fun d => (d.name, d.count))

/-- `(name, count)` pairs of the female records of a list, in order. -/
def femalePairs (dogs : List Dog) : List (String × Int) :=
  (dogs.filter (fun d => !(d.sex == Sex.male))).map (fun d => (d.name, d.count))

/-- The per-field one-step update for the running longest name. -/
def stepLongest (acc : String) (n : String) : String :=
  if n.length > acc.length then n else acc

/-- The per-field one-step update for the running shortest name. -/
def stepShortest (acc : Option String) (n : String) : Option String :=
  match acc with
  | none => some n
  | some s => if n.length < s.length then some n else some s

/-- The per-field one-step update for the running first year. -/
def stepFirst (acc : Option Int) (y : Int) : Option Int :=
  match acc with
  | none => some y
  | some f => if f > y then some y else some f

/-- The per-field one-step update for the running last year. -/
def stepLast (acc : Int) (y : Int) : Int :=
  if acc < y then y else acc

/-- Fold `bump` over a list of `(name, count)` pairs. -/
def bumpFold (m : List (String × Int)) (l : List (String × Int)) :
    List (String × Int) :=
  l.foldl (fun acc p => bump acc p.1 p.2) m

/-- Spec-side: the distinct elements of a list in first-occurrence order. -/
def firstOccs (l : List String) : List String :=
  l.foldl (fun acc x => if x ∈ acc then acc else acc ++ [x]) []

/-- Spec-side: the summed counts of all pairs carrying a given name. -/
def sumFor (l : List (String × Int)) (n : String) : Int :=
  ((l.filter (fun p => p.1 == n)).map Prod.snd).sum

/-- Spec-side: the name tally described by the spec — each name mapped to the
sum of the counts of its records, keyed in first-insertion order. -/
def tallySpec (l : List (String × Int)) : List (String × Int) :=
  (firstOccs (l.map Prod.fst)).map (fun n => (n, sumFor l n))

/-- Spec-side: the maximal codepoint length among a list of names. -/
def maxLen : List String → Nat
  | [] => 0
  | n :: l => max n.length (maxLen l)

/-- Spec-side: the first name of maximal codepoint length. -/
def firstLongest (ns : List String) : String :=
  (ns.find? (fun n => n.length == maxLen ns)).getD ""

/-- Spec-side: the minimal codepoint length among a non-empty list of names
(0 for the empty list). -/
def minLen : List String → Nat
  | [] => 0
  | [n] => n.length
  | n :: l => min n.length (minLen l)

/-- Spec-side: the first name of minimal codepoint length. -/
def firstShortest (ns : List String) : String :=
  (ns.find? (fun n => n.length == minLen ns)).getD ""

/-- Modelled from the spec's words for claim C8: lookup whose target year is
the explicit filter year whenever one is provided (with no special case for a
zero year), otherwise the maximum record year among the name matches. -/
def findSpec (dogs : List Dog) (yearOpt : Option Int) (name : String) :
    FindResult :=
  let matching := dogs.filter (fun d => d.name == name)
  if matching = [] then .noName
  else
    let target := yearOpt.getD (maxRecordYear matching)
    let result := matching.filter (fun d => d.record_year == target)
    if result = [] then .noYear target else .results result

/-- The amended lookup spec: as `findSpec`, except that an explicit filter
year of 0 counts as not provided and falls back to the maximum record year. -/
def findSpecAmended (dogs : List Dog) (yearOpt : Option Int) (name : String) :
    FindResult :=
  let matching := dogs.filter (fun d => d.name == name)
  if matching = [] then .noName
  else
    let target :=
      match yearOpt with
      | some y => if y = 0 then maxRecordYear matching else y
      | none => maxRecordYear matching
    let result := matching.filter (fun d => d.record_year == target)
    if result = [] then .noYear target else .results result

/-! ### Lemmas about the `analyze` loop -/

theorem foldl_step_skip (l : List Dog) (s : AnalyzeState) :
    (l.filter keep).foldl step s = l.foldl step s := by
  induction l generalizing s with
  | nil => rfl
  | cons d l ih =>
    by_cases h : d.name = "?"
    · have hk : keep d = false := by simp [keep, h]
      have hs : step s d = s := by simp [step, h]
      simp [List.filter_cons, hk, hs, ih]
    · have hk : keep d = true := by simp [keep, h]
      simp [List.filter_cons, hk, ih]

theorem filter_swap (l : List Dog) (p q : Dog → Bool) :
    (l.filter p).filter q = (l.filter q).filter p := by
  simp only [List.filter_filter]
  congr 1
  funext a
  cases p a <;> cases q a <;> rfl

theorem filter_self_idem (l : List Dog) (p : Dog → Bool) :
    (l.filter p).filter p = l.filter p := by
  simp [List.filter_filter]

/-- C2: a record whose name is the placeholder `"?"` contributes to no field
of the statistics summary: for every collection and every optional year
filter, `analyze` returns the same summary when all placeholder-named rows
are removed up front (the entire row is skipped). -/
theorem analyze_skips_placeholder (dogs : List Dog) (year : Option Int) :
    analyze dogs year = analyze (dogs.filter keep) year := by
  unfold analyze
  have hfold : (yearFiltered dogs year).foldl step initState
      = (yearFiltered (dogs.filter keep) year).foldl step initState := by
    rw [← foldl_step_skip (yearFiltered dogs year),
        ← foldl_step_skip (yearFiltered (dogs.filter keep) year)]
    congr 1
    cases year with
    | none => simp [yearFiltered, filter_self_idem]
    | some y =>
      by_cases hy : y == 0
      · simp [yearFiltered, hy, filter_self_idem]
      · simp only [yearFiltered, hy, Bool.false_eq_true, if_false]
        rw [filter_swap dogs keep (fun d => d.record_year == y),
          filter_self_idem]
  rw [hfold]

/-- C10: a year argument of 0 is falsy in Python, so `analyze` with
`year = 0` applies no year filter at all and returns exactly the summary of
the unfiltered collection. -/
theorem analyze_year_zero_no_filter (dogs : List Dog) :
    analyze dogs (some 0) = analyze dogs none := rfl

/-- C1 counterexample: at year 0 the claimed equivalence fails, because
`analyze` with `year = 0` ignores the filter while the right-hand side
restricts to records with `record_year == 0` (here: none). -/
theorem analyze_filter_equiv_fails_at_zero :
    analyze [⟨"Max", Sex.male, 2003, 2015, 3⟩] (some 0)
      ≠ analyze (([⟨"Max", Sex.male, 2003, 2015, 3⟩] : List Dog).filter
          (fun d => d.record_year == (0 : Int))) none := by
  decide

/-- C1 (amended): for every record collection and every nonzero year `y`,
`analyze` with `year = y` returns the same statistics summary as first
filtering the collection to records with `record_year == y` and then calling
`analyze` with no year argument. -/
theorem analyze_filter_equiv (dogs : List Dog) (y : Int) (h : y ≠ 0) :
    analyze dogs (some y)
      = analyze (dogs.filter (fun d => d.record_year == y)) none := by
  have hy : (y == 0) = false := by simp [h]
  simp [analyze, yearFiltered, hy]

/-- C1 witness: the amended equivalence holds at a concrete nonzero year. -/
theorem analyze_filter_equiv_witness :
    (2015 : Int) ≠ 0 ∧
    analyze [⟨"Max", Sex.male, 2003, 2015, 3⟩] (some 2015)
      = analyze (([⟨"Max", Sex.male, 2003, 2015, 3⟩] : List Dog).filter
          (fun d => d.record_year == (2015 : Int))) none :=
  ⟨by decide, analyze_filter_equiv _ 2015 (by decide)⟩

/-- The `analyze` loop decomposes into independent folds, one per local
variable, each over the non-skipped rows (projected to the data it reads). -/
theorem foldl_step_decomp (l : List Dog) (s : AnalyzeState) :
    l.foldl step s =
      { longest_name :=
          ((l.filter keep).map Dog.name).foldl stepLongest s.longest_name
        shortest_name :=
          ((l.filter keep).map Dog.name).foldl stepShortest s.shortest_name
        male_name_count := bumpFold s.male_name_count (malePairs (l.filter keep))
        female_name_count :=
          bumpFold s.female_name_count (femalePairs (l.filter keep))
        male_dog_count :=
          (malePairs (l.filter keep)).foldl (fun a p => a + p.2) s.male_dog_count
        female_dog_count :=
          (femalePairs (l.filter keep)).foldl (fun a p => a + p.2)
            s.female_dog_count
        first_year :=
          ((l.filter keep).map Dog.record_year).foldl stepFirst s.first_year
        last_year :=
          ((l.filter keep).map Dog.record_year).foldl stepLast s.last_year } := by
  induction l generalizing s with
  | nil => simp [bumpFold, malePairs, femalePairs]
  | cons d l ih =>
    by_cases h : d.name = "?"
    · have hk : keep d = false := by simp [keep, h]
      have hs : step s d = s := by simp [step, h]
      simp only [List.foldl_cons, hs, List.filter_cons, hk, Bool.false_eq_true,
        if_false]
      exact ih s
    · have hk : keep d = true := by simp [keep, h]
      rw [List.foldl_cons, ih (step s d)]
      by_cases hsex : d.sex = Sex.male
      · simp [step, h, hsex, hk, List.filter_cons, malePairs, femalePairs,
          bumpFold, stepLongest, stepShortest, stepFirst, stepLast]
      · simp [step, h, hsex, hk, List.filter_cons, malePairs, femalePairs,
          bumpFold, stepLongest, stepShortest, stepFirst, stepLast]

/-! ### The longest / shortest running extremes compute first-of-extremal-length -/

theorem firstLongest_step (a n : String) (ns : List String) :
    firstLongest (stepLongest a n :: ns) = firstLongest (a :: n :: ns) := by
  unfold stepLongest
  by_cases hlt : n.length > a.length
  · simp only [hlt, if_true]
    have hm : maxLen (a :: n :: ns) = maxLen (n :: ns) := by
      show max a.length (maxLen (n :: ns)) = maxLen (n :: ns)
      have h1 : n.length ≤ maxLen (n :: ns) := Nat.le_max_left _ _
      exact Nat.max_eq_right (le_trans (le_of_lt hlt) h1)
    unfold firstLongest
    rw [hm]
    have hpa : ¬ ((a.length == maxLen (n :: ns)) = true) := by
      have h1 : n.length ≤ maxLen (n :: ns) := Nat.le_max_left _ _
      simp only [beq_iff_eq]
      omega
    conv_rhs => rw [List.find?_cons_of_neg _ (by exact hpa)]
  · simp only [hlt, if_false]
    have hle : n.length ≤ a.length := Nat.le_of_not_lt hlt
    have hm : maxLen (a :: n :: ns) = maxLen (a :: ns) := by
      show max a.length (max n.length (maxLen ns)) = max a.length (maxLen ns)
      rw [← Nat.max_assoc, Nat.max_eq_left hle]
    unfold firstLongest
    rw [hm]
    by_cases hpa : (a.length == maxLen (a :: ns)) = true
    · rw [List.find?_cons_of_pos _ (by exact hpa),
        List.find?_cons_of_pos _ (by exact hpa)]
    · have halt : a.length < maxLen (a :: ns) := by
        have h1 : a.length ≤ maxLen (a :: ns) := Nat.le_max_left _ _
        simp only [beq_iff_eq] at hpa
        omega
      have hpn : ¬ ((n.length == maxLen (a :: ns)) = true) := by
        simp only [beq_iff_eq]
        omega
      rw [List.find?_cons_of_neg _ (by exact hpa),
        List.find?_cons_of_neg _ (by exact hpa),
        List.find?_cons_of_neg _ (by exact hpn)]

theorem foldl_stepLongest_spec (ns : List String) (a : String) :
    ns.foldl stepLongest a = firstLongest (a :: ns) := by
  induction ns generalizing a with
  | nil =>
    show a = firstLongest [a]
    unfold firstLongest
    have hm : maxLen [a] = a.length := by simp [maxLen]
    rw [hm, List.find?_cons_of_pos _ (by simp)]
    rfl
  | cons n ns ih =>
    rw [List.foldl_cons, ih (stepLongest a n), firstLongest_step]

theorem longest_from_empty (ns : List String) (hne : ns ≠ []) :
    ns.foldl stepLongest "" = firstLongest ns := by
  cases ns with
  | nil => exact absurd rfl hne
  | cons n ns =>
    rw [List.foldl_cons]
    have h0 : stepLongest "" n = n := by
      unfold stepLongest
      by_cases h : 0 < n.length
      · have hc : n.length > ("" : String).length := h
        rw [if_pos hc]
      · have hn0 : n.length = 0 := by omega
        have hn : n = "" := by
          cases n with
          | mk data =>
            cases data with
            | nil => rfl
            | cons c cs => simp [String.length] at hn0
        rw [hn]
        simp
    rw [h0, foldl_stepLongest_spec]

theorem minLen_le_head (n : String) (ns : List String) :
    minLen (n :: ns) ≤ n.length := by
  cases ns with
  | nil => exact le_refl _
  | cons m l =>
    show min n.length (minLen (m :: l)) ≤ n.length
    exact Nat.min_le_left _ _

theorem firstShortest_drop_first (a n : String) (ns : List String)
    (hlt : n.length < a.length) :
    firstShortest (n :: ns) = firstShortest (a :: n :: ns) := by
  have hm : minLen (a :: n :: ns) = minLen (n :: ns) := by
    show min a.length (minLen (n :: ns)) = minLen (n :: ns)
    exact Nat.min_eq_right (le_trans (minLen_le_head _ _) (le_of_lt hlt))
  unfold firstShortest
  rw [hm]
  have hpa : ¬ ((a.length == minLen (n :: ns)) = true) := by
    have h1 : minLen (n :: ns) ≤ n.length := minLen_le_head _ _
    simp only [beq_iff_eq]
    omega
  conv_rhs => rw [List.find?_cons_of_neg _ (by exact hpa)]

theorem firstShortest_drop_second (a n : String) (ns : List String)
    (hle : a.length ≤ n.length) :
    firstShortest (a :: ns) = firstShortest (a :: n :: ns) := by
  have hm : minLen (a :: n :: ns) = minLen (a :: ns) := by
    cases ns with
    | nil =>
      show min a.length n.length = a.length
      exact Nat.min_eq_left hle
    | cons m l =>
      show min a.length (min n.length (minLen (m :: l)))
          = min a.length (minLen (m :: l))
      rw [← Nat.min_assoc, Nat.min_eq_left hle]
  unfold firstShortest
  rw [hm]
  by_cases hpa : (a.length == minLen (a :: ns)) = true
  · rw [List.find?_cons_of_pos _ (by exact hpa),
      List.find?_cons_of_pos _ (by exact hpa)]
  · have halt : minLen (a :: ns) < a.length := by
      have h1 : minLen (a :: ns) ≤ a.length := minLen_le_head _ _
      simp only [beq_iff_eq] at hpa
      omega
    have hpn : ¬ ((n.length == minLen (a :: ns)) = true) := by
      simp only [beq_iff_eq]
      omega
    rw [List.find?_cons_of_neg _ (by exact hpa),
      List.find?_cons_of_neg _ (by exact hpa),
      List.find?_cons_of_neg _ (by exact hpn)]

theorem foldl_stepShortest_spec (ns : List String) (a : String) :
    ns.foldl stepShortest (some a) = some (firstShortest (a :: ns)) := by
  induction ns generalizing a with
  | nil =>
    show some a = some (firstShortest [a])
    unfold firstShortest
    have hm : minLen [a] = a.length := rfl
    rw [hm, List.find?_cons_of_pos _ (by simp)]
    rfl
  | cons n ns ih =>
    rw [List.foldl_cons]
    by_cases hlt : n.length < a.length
    · have hs : stepShortest (some a) n = some n := by simp [stepShortest, hlt]
      rw [hs, ih n, firstShortest_drop_first a n ns hlt]
    · have hs : stepShortest (some a) n = some a := by simp [stepShortest, hlt]
      rw [hs, ih a, firstShortest_drop_second a n ns (Nat.le_of_not_lt hlt)]

theorem shortest_from_none (ns : List String) (hne : ns ≠ []) :
    ns.foldl stepShortest none = some (firstShortest ns) := by
  cases ns with
  | nil => exact absurd rfl hne
  | cons n ns =>
    rw [List.foldl_cons]
    show ns.foldl stepShortest (some n) = _
    rw [foldl_stepShortest_spec]

/-- C3: on a collection whose filtered, non-skipped part is non-empty,
`name_longest` is the name of the first non-skipped record of maximal
codepoint length and `name_shortest` the name of the first non-skipped
record of minimal codepoint length (strict-comparison updates make the
first-encountered record win all ties). -/
theorem analyze_extremal_names (dogs : List Dog) (year : Option Int)
    (h : keptNames dogs year ≠ []) :
    (analyze dogs year).name_longest = firstLongest (keptNames dogs year) ∧
    (analyze dogs year).name_shortest
      = some (firstShortest (keptNames dogs year)) := by
  have hdec := foldl_step_decomp (yearFiltered dogs year) initState
  constructor
  · show ((yearFiltered dogs year).foldl step initState).longest_name = _
    rw [hdec]
    exact longest_from_empty _ h
  · show ((yearFiltered dogs year).foldl step initState).shortest_name = _
    rw [hdec]
    exact shortest_from_none _ h

/-- C3 witness: on the reference test data the longest name is `"Leila"` and
the shortest is `"Max"`. -/
theorem analyze_extremal_names_witness :
    keptNames [⟨"Max", Sex.male, 2003, 2020, 3⟩,
      ⟨"Leila", Sex.female, 2016, 2021, 1⟩,
      ⟨"Mia", Sex.female, 2015, 2023, 2⟩] none ≠ [] ∧
    (analyze [⟨"Max", Sex.male, 2003, 2020, 3⟩,
      ⟨"Leila", Sex.female, 2016, 2021, 1⟩,
      ⟨"Mia", Sex.female, 2015, 2023, 2⟩] none).name_longest
      = firstLongest (keptNames [⟨"Max", Sex.male, 2003, 2020, 3⟩,
          ⟨"Leila", Sex.female, 2016, 2021, 1⟩,
          ⟨"Mia", Sex.female, 2015, 2023, 2⟩] none) :=
  ⟨by decide,
   (analyze_extremal_names _ none (by decide)).1⟩

/-! ### The running name tally computes the spec's summed counts -/

theorem lookup_map_keys (ks : List String) (f : String → Int) (n : String) :
    (ks.map (fun k => (k, f k))).lookup n
      = if n ∈ ks then some (f n) else none := by
  induction ks with
  | nil => simp
  | cons k ks ih =>
    by_cases h : n = k
    · subst h
      simp [List.lookup]
    · have hb : (n == k) = false := by simp [h]
      simp [List.lookup, hb, ih, h]

theorem firstOccs_append (l : List String) (x : String) :
    firstOccs (l ++ [x])
      = if x ∈ firstOccs l then firstOccs l else firstOccs l ++ [x] := by
  simp [firstOccs, List.foldl_append]

theorem mem_firstOccs (l : List String) (x : String) :
    x ∈ firstOccs l ↔ x ∈ l := by
  induction l using List.reverseRecOn generalizing x with
  | nil => simp [firstOccs]
  | append_singleton l y ih =>
    rw [firstOccs_append]
    by_cases h : y ∈ firstOccs l
    · have hy : y ∈ l := (ih y).mp h
      rw [if_pos h, ih]
      simp only [List.mem_append, List.mem_singleton]
      exact ⟨Or.inl, fun hx => hx.elim id (fun he => he ▸ hy)⟩
    · rw [if_neg h]
      simp [ih]

theorem sumFor_append (l : List (String × Int)) (n : String) (c : Int)
    (k : String) :
    sumFor (l ++ [(n, c)]) k
      = if n = k then sumFor l k + c else sumFor l k := by
  by_cases h : n = k
  · subst h
    simp [sumFor, List.filter_append]
  · have hb : (n == k) = false := by simp [h]
    simp [sumFor, List.filter_append, hb, h]

theorem sumFor_zero (l : List (String × Int)) (n : String)
    (h : n ∉ l.map Prod.fst) : sumFor l n = 0 := by
  have hf : l.filter (fun p => p.1 == n) = [] := by
    rw [List.filter_eq_nil_iff]
    intro p hp
    simp only [beq_iff_eq]
    exact fun he => h (he ▸ List.mem_map_of_mem Prod.fst hp)
  simp [sumFor, hf]

theorem bump_tallySpec (l : List (String × Int)) (n : String) (c : Int) :
    bump (tallySpec l) n c = tallySpec (l ++ [(n, c)]) := by
  unfold tallySpec
  rw [List.map_append]
  show bump ((firstOccs (l.map Prod.fst)).map (fun k => (k, sumFor l k))) n c
      = (firstOccs (l.map Prod.fst ++ [n])).map
          (fun k => (k, sumFor (l ++ [(n, c)]) k))
  rw [firstOccs_append]
  by_cases h : n ∈ firstOccs (l.map Prod.fst)
  · rw [if_pos h]
    unfold bump
    have hl : ((firstOccs (l.map Prod.fst)).map
        (fun k => (k, sumFor l k))).lookup n = some (sumFor l n) := by
      rw [lookup_map_keys]
      simp [h]
    simp only [hl, Option.isSome_some, if_true]
    rw [List.map_map]
    apply List.map_congr_left
    intro k _
    by_cases hkn : k = n
    · subst hkn
      simp [Function.comp, sumFor_append]
    · have hb : (k == n) = false := by simp [hkn]
      have hnk : ¬ n = k := fun he => hkn he.symm
      simp [Function.comp, hb, sumFor_append, hnk]
  · rw [if_neg h]
    unfold bump
    have hl : ((firstOccs (l.map Prod.fst)).map
        (fun k => (k, sumFor l k))).lookup n = none := by
      rw [lookup_map_keys]
      simp [h]
    simp only [hl, Option.isSome_none, Bool.false_eq_true, if_false]
    rw [List.map_append]
    congr 1
    · apply List.map_congr_left
      intro k hk
      have hkn : ¬ n = k := fun he => h (he ▸ hk)
      simp [sumFor_append, hkn]
    · have hnl : n ∉ l.map Prod.fst := fun hm => h ((mem_firstOccs _ _).mpr hm)
      simp [sumFor_append, sumFor_zero l n hnl]

theorem tally_eq (l : List (String × Int)) : bumpFold [] l = tallySpec l := by
  induction l using List.reverseRecOn with
  | nil => rfl
  | append_singleton l p ih =>
    cases p with
    | mk n c =>
      show (l ++ [(n, c)]).foldl (fun acc p => bump acc p.1 p.2) [] = _
      rw [List.foldl_append]
      simp only [List.foldl_cons, List.foldl_nil]
      rw [show l.foldl (fun acc p => bump acc p.1 p.2) [] = bumpFold [] l from rfl,
        ih, bump_tallySpec]

/-! ### The descending insertion sort is sorted -/

theorem mem_insertDesc (x y : String × Int) (l : List (String × Int))
    (hy : y ∈ insertDesc x l) : y = x ∨ y ∈ l := by
  induction l with
  | nil =>
    simp [insertDesc] at hy
    exact Or.inl hy
  | cons z zs ih =>
    unfold insertDesc at hy
    by_cases h : x.2 ≥ z.2
    · rw [if_pos h, List.mem_cons] at hy
      rcases hy with he | hy
      · exact Or.inl he
      · exact Or.inr hy
    · rw [if_neg h, List.mem_cons] at hy
      rcases hy with he | hy
      · exact Or.inr (he ▸ List.mem_cons_self _ _)
      · rcases ih hy with he | hm
        · exact Or.inl he
        · exact Or.inr (List.mem_cons_of_mem _ hm)

theorem pairwise_insertDesc (x : String × Int) (l : List (String × Int))
    (h : l.Pairwise (fun p q => q.2 ≤ p.2)) :
    (insertDesc x l).Pairwise (fun p q => q.2 ≤ p.2) := by
  induction l with
  | nil => simp [insertDesc]
  | cons y ys ih =>
    rw [List.pairwise_cons] at h
    unfold insertDesc
    by_cases hxy : x.2 ≥ y.2
    · rw [if_pos hxy]
      rw [List.pairwise_cons]
      constructor
      · intro z hz
        rw [List.mem_cons] at hz
        rcases hz with he | hz
        · exact he ▸ hxy
        · exact le_trans (h.1 z hz) hxy
      · rw [List.pairwise_cons]
        exact h
    · rw [if_neg hxy]
      rw [List.pairwise_cons]
      constructor
      · intro z hz
        rcases mem_insertDesc x z ys hz with rfl | hz
        · exact le_of_lt (lt_of_not_ge hxy)
        · exact h.1 z hz
      · exact ih h.2

theorem pairwise_sortDesc (l : List (String × Int)) :
    (sortDesc l).Pairwise (fun p q => q.2 ≤ p.2) := by
  induction l with
  | nil => simp [sortDesc]
  | cons x xs ih => exact pairwise_insertDesc x _ ih

/-- C4: the per-sex top-name tables map each aggregated name of that sex to
the summed `count` of all its matching records, keyed in first-insertion
order, stably sorted by count descending (`sortDesc`), and truncated to the
first 10 entries; the resulting tables are sorted non-increasingly. -/
theorem analyze_top_names (dogs : List Dog) (year : Option Int) :
    (analyze dogs year).top_names_male
        = (sortDesc (tallySpec (malePairs (keptDogs dogs year)))).take 10 ∧
    (analyze dogs year).top_names_female
        = (sortDesc (tallySpec (femalePairs (keptDogs dogs year)))).take 10 ∧
    (analyze dogs year).top_names_male.Pairwise (fun p q => q.2 ≤ p.2) ∧
    (analyze dogs year).top_names_female.Pairwise (fun p q => q.2 ≤ p.2) := by
  have hdec := foldl_step_decomp (yearFiltered dogs year) initState
  have hm : (analyze dogs year).top_names_male
      = (sortDesc (tallySpec (malePairs (keptDogs dogs year)))).take 10 := by
    show (sortDesc ((yearFiltered dogs year).foldl step
        initState).male_name_count).take 10 = _
    rw [hdec]
    show (sortDesc (bumpFold [] (malePairs (keptDogs dogs year)))).take 10 = _
    rw [tally_eq]
  have hf : (analyze dogs year).top_names_female
      = (sortDesc (tallySpec (femalePairs (keptDogs dogs year)))).take 10 := by
    show (sortDesc ((yearFiltered dogs year).foldl step
        initState).female_name_count).take 10 = _
    rw [hdec]
    show (sortDesc (bumpFold [] (femalePairs (keptDogs dogs year)))).take 10 = _
    rw [tally_eq]
  refine ⟨hm, hf, ?_, ?_⟩
  · rw [hm]
    exact (pairwise_sortDesc _).sublist (List.take_sublist _ _)
  · rw [hf]
    exact (pairwise_sortDesc _).sublist (List.take_sublist _ _)

/-- C5: for every statistics summary (`analyze` always builds one with the
default `top_limit` of 10), `top_names_overall` is the concatenation of the
male and female top-10 lists re-sorted descending by count and truncated to
10 entries, so it never holds more than 10 entries. -/
theorem top_names_overall_spec (s : DogStats) (h : s.top_limit = 10) :
    s.top_names_overall
        = (sortDesc (s.top_names_male ++ s.top_names_female)).take 10 ∧
    s.top_names_overall.length ≤ 10 := by
  unfold DogStats.top_names_overall
  rw [h]
  refine ⟨rfl, ?_⟩
  have := List.length_take 10 (sortDesc (s.top_names_male ++ s.top_names_female))
  omega

/-- C5 witness: a concrete summary produced by `analyze` has the default
limit and its overall table length is at most 10. -/
theorem top_names_overall_spec_witness :
    (analyze [⟨"Max", Sex.male, 2003, 2020, 3⟩] none).top_limit = 10 ∧
    (analyze [⟨"Max", Sex.male, 2003, 2020, 3⟩]
        none).top_names_overall.length ≤ 10 :=
  ⟨rfl, (top_names_overall_spec _ rfl).2⟩

/-! ### `Dog.from_dict` error behaviour -/

/-- C6 counterexample: a mapping that lacks the birth-year field but also
carries the invalid sex code `"3"` fails with the invalid-sex-code error
(in Python, the `KeyError('3')` of the code table), not with the
missing-field error, although a required field is absent — so "fails with a
MissingField error exactly when a required field is absent" does not hold
unconditionally. -/
theorem from_dict_missing_iff_fails :
    (∃ k ∈ requiredKeys,
      ([("HundenameText", "Shoto"), ("SexHundCd", "3")]
        : List (String × String)).lookup k = none) ∧
    isMissingField
      (Dog.from_dict [("HundenameText", "Shoto"), ("SexHundCd", "3")]) = false ∧
    Dog.from_dict [("HundenameText", "Shoto"), ("SexHundCd", "3")]
      = .error (.invalidSexCode "3") := by
  refine ⟨⟨"GebDatHundJahr", by decide, by decide⟩, rfl, rfl⟩

/-- C6 (amended): (1) when every value present among the required fields is
well formed, construction fails with a missing-field error exactly when one
of the five required fields is absent; (2) when the name field is present, a
present sex code other than `"1"` and `"2"` makes construction fail with the
invalid-sex-code error; (3) construction only consults the five required
keys, so mappings agreeing on them (whatever extra keys they carry) yield
identical results. -/
theorem from_dict_spec :
    (∀ dic : List (String × String), goodValues dic = true →
      ((∃ k ∈ requiredKeys, dic.lookup k = none)
        ↔ isMissingField (Dog.from_dict dic) = true)) ∧
    (∀ (dic : List (String × String)) (code : String),
      dic.lookup "HundenameText" ≠ none →
      dic.lookup "SexHundCd" = some code → code ≠ "1" → code ≠ "2" →
      Dog.from_dict dic = .error (.invalidSexCode code)) ∧
    (∀ d1 d2 : List (String × String),
      (∀ k ∈ requiredKeys, d1.lookup k = d2.lookup k) →
      Dog.from_dict d1 = Dog.from_dict d2) := by
  refine ⟨?_, ?_, ?_⟩
  · intro dic hg
    simp only [goodValues, Bool.and_eq_true] at hg
    obtain ⟨⟨⟨hgs, hgb⟩, hgr⟩, hgc⟩ := hg
    rcases h1 : dic.lookup "HundenameText" with _ | nm
    · constructor
      · intro _
        simp [Dog.from_dict, h1, isMissingField]
      · intro _
        exact ⟨"HundenameText", by simp [requiredKeys], h1⟩
    · rcases h2 : dic.lookup "SexHundCd" with _ | code
      · constructor
        · intro _
          simp [Dog.from_dict, h1, h2, isMissingField]
        · intro _
          exact ⟨"SexHundCd", by simp [requiredKeys], h2⟩
      · rw [h2] at hgs
        have hsx : (if code = "1" then some Sex.male
            else if code = "2" then some Sex.female else none).isSome = true := by
          rcases Bool.or_eq_true .. |>.mp hgs with hc | hc
          · rw [if_pos (by simpa using hc)]
            rfl
          · rw [if_neg (by simp [show code = "2" from by simpa using hc]),
              if_pos (by simpa using hc)]
            rfl
        obtain ⟨sx, hsx⟩ := Option.isSome_iff_exists.mp hsx
        rcases h3 : dic.lookup "GebDatHundJahr" with _ | bv
        · constructor
          · intro _
            simp [Dog.from_dict, h1, h2, hsx, h3, isMissingField]
          · intro _
            exact ⟨"GebDatHundJahr", by simp [requiredKeys], h3⟩
        · rw [h3] at hgb
          obtain ⟨bi, hbi⟩ := Option.isSome_iff_exists.mp hgb
          rcases h4 : dic.lookup "StichtagDatJahr" with _ | rv
          · constructor
            · intro _
              simp [Dog.from_dict, h1, h2, hsx, h3, hbi, h4, isMissingField]
            · intro _
              exact ⟨"StichtagDatJahr", by simp [requiredKeys], h4⟩
          · rw [h4] at hgr
            obtain ⟨ri, hri⟩ := Option.isSome_iff_exists.mp hgr
            rcases h5 : dic.lookup "AnzHunde" with _ | cv
            · constructor
              · intro _
                simp [Dog.from_dict, h1, h2, hsx, h3, hbi, h4, hri, h5,
                  isMissingField]
              · intro _
                exact ⟨"AnzHunde", by simp [requiredKeys], h5⟩
            · rw [h5] at hgc
              obtain ⟨ci, hci⟩ := Option.isSome_iff_exists.mp hgc
              have hok : Dog.from_dict dic
                  = .ok { name := nm, sex := sx, birth_year := bi,
                          record_year := ri, count := ci } := by
                simp [Dog.from_dict, h1, h2, hsx, h3, hbi, h4, hri, h5, hci]
              constructor
              · rintro ⟨k, hk, hno⟩
                simp only [requiredKeys, List.mem_cons, List.mem_singleton,
                  List.not_mem_nil, or_false] at hk
                rcases hk with rfl | rfl | rfl | rfl | rfl
                · rw [h1] at hno
                  cases hno
                · rw [h2] at hno
                  cases hno
                · rw [h3] at hno
                  cases hno
                · rw [h4] at hno
                  cases hno
                · rw [h5] at hno
                  cases hno
              · intro hmf
                rw [hok] at hmf
                simp [isMissingField] at hmf
  · intro dic code h1ne h2 hc1 hc2
    rcases h1 : dic.lookup "HundenameText" with _ | nm
    · exact absurd h1 h1ne
    · simp [Dog.from_dict, h1, h2, hc1, hc2]
  · intro d1 d2 hagree
    have e1 := hagree "HundenameText" (by simp [requiredKeys])
    have e2 := hagree "SexHundCd" (by simp [requiredKeys])
    have e3 := hagree "GebDatHundJahr" (by simp [requiredKeys])
    have e4 := hagree "StichtagDatJahr" (by simp [requiredKeys])
    have e5 := hagree "AnzHunde" (by simp [requiredKeys])
    unfold Dog.from_dict
    rw [e1, e2, e3, e4, e5]

/-- C6 witness: the three parts of the amended claim at concrete mappings —
a mapping missing its sex code fails with the missing-field error, a present
sex code `"9"` fails with the invalid-sex-code error, and extra keys do not
affect the result. -/
theorem from_dict_spec_witness :
    isMissingField (Dog.from_dict [("HundenameText", "Shoto")]) = true ∧
    Dog.from_dict [("HundenameText", "Shoto"), ("SexHundCd", "9"),
        ("GebDatHundJahr", "2005"), ("StichtagDatJahr", "2024"),
        ("AnzHunde", "1")]
      = .error (.invalidSexCode "9") ∧
    Dog.from_dict [("HundenameText", "Shoto"), ("SexHundCd", "1"),
        ("GebDatHundJahr", "2005"), ("StichtagDatJahr", "2024"),
        ("AnzHunde", "1")]
      = Dog.from_dict [("AnzHunde", "1"), ("StichtagDatJahr", "2024"),
          ("GebDatHundJahr", "2005"), ("SexHundCd", "1"),
          ("HundenameText", "Shoto"), ("Spitzname", "Sho")] :=
  ⟨(from_dict_spec.1 [("HundenameText", "Shoto")] (by decide)).mp
      ⟨"SexHundCd", by decide, by decide⟩,
   from_dict_spec.2.1 _ "9" (by decide) (by decide) (by decide) (by decide),
   from_dict_spec.2.2 _ _ (by decide)⟩

/-! ### The reusable iterator -/

theorem drain_eq_aux (n : Nat) : ∀ d : DogData,
    d.data.length - d.current = n → d.current ≤ d.data.length →
    d.drain = (d.data.drop d.current, ⟨d.data.length, d.data⟩) := by
  induction n with
  | zero =>
    intro d hn hle
    have hcur : d.current = d.data.length := by omega
    rw [DogData.drain, dif_neg (by omega)]
    cases d with
    | mk cur data =>
      simp only at hcur
      subst hcur
      simp [List.drop_length]
  | succ n ih =>
    intro d hn hle
    have hlt : d.current < d.data.length := by omega
    rw [DogData.drain, dif_pos hlt]
    have ih' := ih { d with current := d.current + 1 } (by simp; omega)
      (by simp; omega)
    simp only at ih'
    simp only [ih']
    rw [List.drop_eq_getElem_cons hlt]
    simp [List.get_eq_getElem]

theorem drain_from_iter (d : DogData) :
    (d.iter).drain = (d.data, ⟨d.data.length, d.data⟩) := by
  have h := drain_eq_aux (d.data.length) d.iter (by simp [DogData.iter])
    (by simp [DogData.iter])
  simpa [DogData.iter] using h

/-- C7: traversing a record collection (`list(dogs)`, which first calls
`__iter__` and then exhausts the iterator) yields the underlying rows, and a
second traversal of the resulting iterator state restarts at the first
element and yields exactly the same sequence again. -/
theorem iterate_twice_same (d : DogData) (_h : d.data ≠ []) :
    ((d.iter).drain).1 = d.data ∧
    ((((d.iter).drain).2).iter).drain.1 = d.data := by
  have h1 := drain_from_iter d
  refine ⟨by rw [h1], ?_⟩
  rw [h1]
  have h2 := drain_from_iter (⟨d.data.length, d.data⟩ : DogData)
  rw [h2]

/-- C7 witness: a concrete two-element collection traverses to its rows
(even starting from a spent cursor, thanks to the `__iter__` reset). -/
theorem iterate_twice_same_witness :
    ([⟨"Max", Sex.male, 2003, 2020, 3⟩, ⟨"Mia", Sex.female, 2015, 2023, 2⟩]
      : List Dog) ≠ [] ∧
    ((DogData.mk 2 [⟨"Max", Sex.male, 2003, 2020, 3⟩,
        ⟨"Mia", Sex.female, 2015, 2023, 2⟩]).iter.drain).1
      = [⟨"Max", Sex.male, 2003, 2020, 3⟩, ⟨"Mia", Sex.female, 2015, 2023, 2⟩] :=
  ⟨by decide,
   (iterate_twice_same (DogData.mk 2 [⟨"Max", Sex.male, 2003, 2020, 3⟩,
      ⟨"Mia", Sex.female, 2015, 2023, 2⟩]) (by decide)).1⟩

/-! ### Lookup -/

/-- C8 counterexample: with an explicit filter year of 0, the code falls
back to the maximum record year (Python `or` on a falsy 0) and returns
records, while the spec's words demand target year 0 and hence the
"no result for year" outcome. -/
theorem find_ne_findSpec :
    find [⟨"Max", Sex.male, 2003, 2015, 3⟩] (some 0) "Max"
      ≠ findSpec [⟨"Max", Sex.male, 2003, 2015, 3⟩] (some 0) "Max" := by
  decide

/-- C8 (amended): `find` filters to exact name matches and reports the
no-name outcome when there are none; otherwise the target year is the
explicit filter year when provided and nonzero (a zero or absent filter year
falls back to the maximum record year among the name matches), the name
matches are filtered to that year, and an empty second filter reports the
"no result for year" outcome instead of returning records. -/
theorem find_eq_findSpecAmended (dogs : List Dog) (yearOpt : Option Int)
    (name : String) :
    find dogs yearOpt name = findSpecAmended dogs yearOpt name := by
  unfold find findSpecAmended
  by_cases he : dogs.filter (fun d => d.name == name) = []
  · simp [he]
  · have hlen : ((dogs.filter (fun d => d.name == name)).length == 0) = false := by
      simp [List.length_eq_zero, he]
    simp only [hlen, Bool.false_eq_true, if_false, if_neg he]
    cases yearOpt with
    | none =>
      by_cases hres : (dogs.filter (fun d => d.name == name)).filter
          (fun d => d.record_year == maxRecordYear
            (dogs.filter (fun d => d.name == name))) = []
      · simp [hres, List.length_eq_zero]
      · simp [hres, List.length_eq_zero]
    | some y =>
      by_cases hy : y = 0
      · subst hy
        simp only [beq_self_eq_true, if_true, if_pos rfl]
        by_cases hres : (dogs.filter (fun d => d.name == name)).filter
            (fun d => d.record_year == maxRecordYear
              (dogs.filter (fun d => d.name == name))) = []
        · simp [hres, List.length_eq_zero]
        · simp [hres, List.length_eq_zero]
      · have hyb : (y == 0) = false := by simp [hy]
        simp only [hyb, Bool.false_eq_true, if_false, if_neg hy]
        by_cases hres : (dogs.filter (fun d => d.name == name)).filter
            (fun d => d.record_year == y) = []
        · simp [hres, List.length_eq_zero]
        · simp [hres, List.length_eq_zero]

/-! ### Fabricator -/

/-- C9: whenever the record collection filtered to the randomly chosen sex
(and to the year filter, when one is in effect) is empty, the fabricator's
sampling core fails with the no-match error, whatever the two random draws
would have been — no name or birth year is produced. -/
theorem create_noMatch (dogs : List Dog) (yearOpt : Option Int)
    (sexPick : Sex) (ni bi : Nat)
    (h : fabricatorPool dogs yearOpt sexPick = []) :
    create dogs yearOpt sexPick ni bi = .error .noMatch := by
  unfold create
  rw [h]

/-- C9 witness: an empty collection gives an empty pool and the no-match
error. -/
theorem create_noMatch_witness :
    fabricatorPool [] none Sex.male = [] ∧
    create [] none Sex.male 0 0 = .error .noMatch :=
  ⟨rfl, create_noMatch [] none Sex.male 0 0 rfl⟩

end Wuff
